import Mathlib

/-!
Shallow embedding of the MRO cost estimator's pricing core
(src/app.py and src/app_streamlit.py).

Reference tables are in-memory lists of rows; monetary values
(BaseCostUSD, Multiplier, line totals) are modelled as exact
rationals, quantities as integers.  `get_multiplier` is textually
identical in the two front ends, so one embedding serves both;
`calculate_cost` differs (the CLI checks for a missing procedure and
raises, the web version indexes an empty frame and hence also fails,
but without its own check), so both variants are embedded.
-/

/-- One row of Procedures.csv: ProcedureCode, ProcedureName, BaseCostUSD. -/
structure ProcedureRow where
  procedureCode : String
  procedureName : String
  baseCostUSD : ℚ
deriving DecidableEq

/-- One row of CostMultipliers.csv: PartNumber, ProcedureCode, Multiplier. -/
structure MultiplierRow where
  partNumber : String
  procedureCode : String
  multiplier : ℚ
deriving DecidableEq

/-- The loaded reference tables that the pricing functions read
(`procedures_df` and `multipliers_df` in the source). -/
structure Catalog where
  procedures : List ProcedureRow
  multipliers : List MultiplierRow
deriving DecidableEq

/-- The function `get_multiplier` (identical in src/app.py lines 42-47 and
src/app_streamlit.py lines 24-29): filter the multiplier table on an
exact match of both fields, return the first matching row's
Multiplier, or 1.0 when no row matches. -/
def get_multiplier (cat : Catalog) (part_number procedure_code : String) : ℚ :=
  match cat.multipliers.filter
      (fun r => r.partNumber == part_number && r.procedureCode == procedure_code) with
  | [] => 1
  | r :: _ => r.multiplier

/-- The function `calculate_cost` of the CLI front end (src/app.py lines 49-56):
filter the procedure table on ProcedureCode; if empty raise
ValueError, else take the first row's BaseCostUSD, call
`get_multiplier`, and return (base, multiplier, base * multiplier * quantity). -/
def calculate_cost (cat : Catalog) (part_number procedure_code : String)
    (quantity : ℤ) : Except String (ℚ × ℚ × ℚ) :=
  match cat.procedures.filter (fun r => r.procedureCode == procedure_code) with
  | [] => .error ("Procedure " ++ procedure_code ++ " not found.")
  | r :: _ =>
    let base_cost := r.baseCostUSD
    let multiplier := get_multiplier cat part_number procedure_code
    .ok (base_cost, multiplier, base_cost * multiplier * (quantity : ℚ))

/-- The function `calculate_cost` of the web front end (src/app_streamlit.py lines
31-35): same computation but with no emptiness check — indexing
`proc_row["BaseCostUSD"].values[0]` on an empty frame fails
(IndexError), modelled as `none`. -/
def calculate_cost_web (cat : Catalog) (part_number procedure_code : String)
    (quantity : ℤ) : Option (ℚ × ℚ × ℚ) :=
  match cat.procedures.filter (fun r => r.procedureCode == procedure_code) with
  | [] => none
  | r :: _ =>
    let base_cost := r.baseCostUSD
    let multiplier := get_multiplier cat part_number procedure_code
    some (base_cost, multiplier, base_cost * multiplier * (quantity : ℚ))

/-- The quantity chosen for one part (src/app.py lines 93-99,
src/app_streamlit.py lines 118-123): when SeriesQty is present and
nonzero (Python truthiness of `series_qty`) and the user opts to use
the full series, the quantity is SeriesQty; in every other case it is
the user-entered quantity. -/
def choose_quantity (series_qty : Option ℤ) (use_series : Bool)
    (entered_qty : ℤ) : ℤ :=
  match series_qty with
  | none => entered_qty
  | some s => if s = 0 then entered_qty else if use_series then s else entered_qty

/-- One (partNumber, description, procedureCode, quantity) tuple of the
selection sequence fed to quote building. -/
structure Selection where
  partNumber : String
  description : String
  procedureCode : String
  quantity : ℤ
deriving DecidableEq

/-- A costed line item as appended to `quote_items` (src/app.py lines
112-120, src/app_streamlit.py lines 134-142). -/
structure LineItem where
  partNumber : String
  description : String
  procedureCode : String
  quantity : ℤ
  baseCost : ℚ
  multiplier : ℚ
  total : ℚ
deriving DecidableEq

/-- The `quote_items` accumulation (src/app.py lines 89-120,
src/app_streamlit.py lines 113-142): for each selection tuple in
order, call `calculate_cost` and append a LineItem carrying the
tuple's fields with the returned base cost, multiplier and total. -/
def build_quote_items (cat : Catalog) : List Selection → Except String (List LineItem)
  | [] => .ok []
  | s :: rest =>
    match calculate_cost cat s.partNumber s.procedureCode s.quantity with
    | .error e => .error e
    | .ok (b, m, t) =>
      match build_quote_items cat rest with
      | .error e => .error e
      | .ok items =>
        .ok ({ partNumber := s.partNumber, description := s.description,
               procedureCode := s.procedureCode, quantity := s.quantity,
               baseCost := b, multiplier := m, total := t } :: items)

/-- One update of the `part_totals` defaultdict
(`part_totals[item['PartNumber']] += item['Total']`): add `t` to the
existing entry for `pn`, keeping insertion order, or append a new
entry at the end. -/
def add_to_part_totals (totals : List (String × ℚ)) (pn : String) (t : ℚ) :
    List (String × ℚ) :=
  match totals with
  | [] => [(pn, t)]
  | (k, v) :: rest =>
    if k = pn then (k, v + t) :: rest else (k, v) :: add_to_part_totals rest pn t

/-- The per-part subtotal map built by the single pass over
`quote_items` (src/app.py lines 125-132, src/app_streamlit.py lines
151-153), as an insertion-ordered association list. -/
def part_totals (items : List LineItem) : List (String × ℚ) :=
  items.foldl (fun acc it => add_to_part_totals acc it.partNumber it.total) []

/-- The `grand_total` accumulation of src/app.py lines 124-132: start
at 0 and add each item's Total in the same pass. -/
def grand_total (items : List LineItem) : ℚ :=
  items.foldl (fun acc it => acc + it.total) 0

/-- The grand total of the web front end (src/app_streamlit.py line
158, `df['Total'].sum()`): the sum of the Total column. -/
def grand_total_web (items : List LineItem) : ℚ :=
  (items.map (fun it => it.total)).sum

/-- Sum of the subtotal values of a per-part totals list. -/
def subtotals_sum (totals : List (String × ℚ)) : ℚ :=
  (totals.map Prod.snd).sum

/-- The description shown next to a part's subtotal
(`next(i['Description'] for i in quote_items if i['PartNumber'] == part_num)`,
src/app.py line 136, src/app_streamlit.py line 155): the Description
of the first line item whose PartNumber matches. -/
def displayed_description (items : List LineItem) (pn : String) : Option String :=
  (items.find? (fun i => i.partNumber == pn)).map (fun i => i.description)

/-- Spec-side characterisation of insertion order: append a key if it
is not already present. -/
def add_key (acc : List String) (x : String) : List String :=
  if x ∈ acc then acc else acc ++ [x]

/-- Spec-side characterisation: the keys of a sequence in
first-occurrence order. -/
def first_occurrences (l : List String) : List String :=
  l.foldl add_key []

/-! Sample catalogs used by witnesses (Scenario A/B data of the spec). -/

/-- Procedure "R100" with BaseCostUSD 200.00. -/
def procR100 : ProcedureRow :=
  { procedureCode := "R100", procedureName := "Repair", baseCostUSD := 200 }

/-- A second procedure, to populate the table. -/
def procR200 : ProcedureRow :=
  { procedureCode := "R200", procedureName := "Overhaul", baseCostUSD := 50 }

/-- Multiplier override (P1, R100) = 1.5. -/
def multP1R100 : MultiplierRow :=
  { partNumber := "P1", procedureCode := "R100", multiplier := 3/2 }

/-- A small catalog with unique keys. -/
def sampleCatalog : Catalog :=
  { procedures := [procR100, procR200], multipliers := [multP1R100] }

/-- A catalog whose multiplier table has two rows for (P1, R100). -/
def dupCatalog : Catalog :=
  { procedures := [procR100],
    multipliers :=
      [{ partNumber := "P1", procedureCode := "R100", multiplier := 3/2 },
       { partNumber := "P1", procedureCode := "R100", multiplier := 2 }] }

/-! Claim theorems. -/

/-- C1: when `c` has a unique row in the Procedure table and the
quantity is positive, `calculate_cost` (in both front ends) returns
the triple (BaseCostUSD of that row, `get_multiplier p c`,
base × multiplier × quantity). -/
theorem calculate_cost_correct (cat : Catalog) (p c : String) (q : ℤ)
    (r : ProcedureRow)
    (hr : cat.procedures.filter (fun row => row.procedureCode == c) = [r])
    (_hq : 0 < q) :
    calculate_cost cat p c q =
      .ok (r.baseCostUSD, get_multiplier cat p c,
        r.baseCostUSD * get_multiplier cat p c * (q : ℚ)) ∧
    calculate_cost_web cat p c q =
      some (r.baseCostUSD, get_multiplier cat p c,
        r.baseCostUSD * get_multiplier cat p c * (q : ℚ)) := by
  unfold calculate_cost calculate_cost_web
  rw [hr]
  exact ⟨rfl, rfl⟩

/-- Witness for C1 at Scenario B data: part "P1", procedure "R100",
quantity 2. -/
theorem calculate_cost_correct_witness :
    calculate_cost sampleCatalog "P1" "R100" 2 =
      .ok (procR100.baseCostUSD, get_multiplier sampleCatalog "P1" "R100",
        procR100.baseCostUSD * get_multiplier sampleCatalog "P1" "R100" * ((2 : ℤ) : ℚ)) ∧
    calculate_cost_web sampleCatalog "P1" "R100" 2 =
      some (procR100.baseCostUSD, get_multiplier sampleCatalog "P1" "R100",
        procR100.baseCostUSD * get_multiplier sampleCatalog "P1" "R100" * ((2 : ℤ) : ℚ)) :=
  calculate_cost_correct sampleCatalog "P1" "R100" 2 procR100 rfl (by decide)

/-- C2: `get_multiplier` returns the stored multiplier when exactly one
row matches the (part, procedure) pair, and exactly 1 when no row
matches; it is a total function (no error path exists in the
embedding). -/
theorem get_multiplier_correct (cat : Catalog) (p c : String) :
    (∀ m : MultiplierRow,
        cat.multipliers.filter
          (fun r => r.partNumber == p && r.procedureCode == c) = [m] →
        get_multiplier cat p c = m.multiplier) ∧
    (cat.multipliers.filter
        (fun r => r.partNumber == p && r.procedureCode == c) = [] →
      get_multiplier cat p c = 1) := by
  constructor
  · intro m hm
    unfold get_multiplier
    rw [hm]
  · intro h
    unfold get_multiplier
    rw [h]

/-- Witness for C2: (P1, R100) is stored once with multiplier 1.5;
(P9, R100) is absent and yields 1. -/
theorem get_multiplier_correct_witness :
    get_multiplier sampleCatalog "P1" "R100" = multP1R100.multiplier ∧
    get_multiplier sampleCatalog "P9" "R100" = 1 :=
  ⟨(get_multiplier_correct sampleCatalog "P1" "R100").1 multP1R100 rfl,
   (get_multiplier_correct sampleCatalog "P9" "R100").2 rfl⟩

/-- C4: `calculate_cost` fails exactly when the procedure code has no
row in the Procedure table — the CLI version returns the ValueError,
and the web version's unguarded indexing also fails there and only
there. -/
theorem calculate_cost_error_iff (cat : Catalog) (p c : String) (q : ℤ) :
    ((∃ e, calculate_cost cat p c q = .error e) ↔
      ∀ r ∈ cat.procedures, r.procedureCode ≠ c) ∧
    (calculate_cost_web cat p c q = none ↔
      ∀ r ∈ cat.procedures, r.procedureCode ≠ c) := by
  have hfilter : (cat.procedures.filter (fun r => r.procedureCode == c) = []) ↔
      ∀ r ∈ cat.procedures, r.procedureCode ≠ c := by
    rw [List.filter_eq_nil_iff]
    simp
  unfold calculate_cost calculate_cost_web
  cases hc : cat.procedures.filter (fun r => r.procedureCode == c) with
  | nil =>
    constructor
    · constructor
      · intro _
        exact hfilter.mp hc
      · intro _
        exact ⟨_, rfl⟩
    · constructor
      · intro _
        exact hfilter.mp hc
      · intro _
        rfl
  | cons r rest =>
    have hmem : ¬ (∀ row ∈ cat.procedures, row.procedureCode ≠ c) := by
      intro hall
      have hr : r ∈ cat.procedures.filter (fun row => row.procedureCode == c) := by
        rw [hc]
        exact List.mem_cons_self _ _
      have h2 := List.mem_filter.mp hr
      exact hall r h2.1 (by simpa using h2.2)
    constructor
    · constructor
      · rintro ⟨e, he⟩
        exact Except.noConfusion he
      · intro hall
        exact absurd hall hmem
    · constructor
      · intro h
        exact Option.noConfusion h
      · intro hall
        exact absurd hall hmem

/-- C8: with several rows matching the pair, `get_multiplier` returns
the first matching row's multiplier (filter preserves table order, so
the head of the filtered list is the first match). -/
theorem get_multiplier_first_match (cat : Catalog) (p c : String)
    (m : MultiplierRow) (rest : List MultiplierRow)
    (hm : cat.multipliers.filter
        (fun r => r.partNumber == p && r.procedureCode == c) = m :: rest)
    (_hrest : rest ≠ []) :
    get_multiplier cat p c = m.multiplier := by
  unfold get_multiplier
  rw [hm]

/-- Witness for C8: two stored rows for (P1, R100); the first (1.5)
wins. -/
theorem get_multiplier_first_match_witness :
    get_multiplier dupCatalog "P1" "R100" = (3 : ℚ)/2 :=
  get_multiplier_first_match dupCatalog "P1" "R100"
    { partNumber := "P1", procedureCode := "R100", multiplier := 3/2 }
    [{ partNumber := "P1", procedureCode := "R100", multiplier := 2 }]
    rfl (by decide)

/-- Helper: when some procedure row has code `c`, the filter on `c` is
nonempty. -/
theorem code_filter_ne_nil (cat : Catalog) (c : String)
    (h : ∃ r ∈ cat.procedures, r.procedureCode = c) :
    cat.procedures.filter (fun r => r.procedureCode == c) ≠ [] := by
  obtain ⟨r, hr, hrc⟩ := h
  intro hnil
  have hmem : r ∈ cat.procedures.filter (fun row => row.procedureCode == c) :=
    List.mem_filter.mpr ⟨hr, by simpa using hrc⟩
  rw [hnil] at hmem
  exact absurd hmem (List.not_mem_nil r)

/-- C9: over the same catalog, for a procedure code present in the
Procedure table, the CLI and web `calculate_cost` return the same
(base, multiplier, total) triple. -/
theorem calculate_cost_front_ends_agree (cat : Catalog) (p c : String) (q : ℤ)
    (h : ∃ r ∈ cat.procedures, r.procedureCode = c) :
    ∃ b m t, calculate_cost cat p c q = .ok (b, m, t) ∧
      calculate_cost_web cat p c q = some (b, m, t) := by
  unfold calculate_cost calculate_cost_web
  cases hc : cat.procedures.filter (fun r => r.procedureCode == c) with
  | nil => exact absurd hc (code_filter_ne_nil cat c h)
  | cons r rest => exact ⟨_, _, _, rfl, rfl⟩

/-- Witness for C9 at part "P1", procedure "R100", quantity 3. -/
theorem calculate_cost_front_ends_agree_witness :
    ∃ b m t, calculate_cost sampleCatalog "P1" "R100" 3 = .ok (b, m, t) ∧
      calculate_cost_web sampleCatalog "P1" "R100" 3 = some (b, m, t) :=
  calculate_cost_front_ends_agree sampleCatalog "P1" "R100" 3
    ⟨procR100, List.mem_cons_self _ _, rfl⟩

/-- C10: `calculate_cost` never checks the quantity: for a procedure
code present in the table it succeeds at every integer quantity,
returning total = base × multiplier × quantity, and at quantity 0 the
total is 0. -/
theorem calculate_cost_no_quantity_check (cat : Catalog) (p c : String)
    (h : ∃ r ∈ cat.procedures, r.procedureCode = c) :
    ∀ q : ℤ, ∃ b m, calculate_cost cat p c q = .ok (b, m, b * m * (q : ℚ)) ∧
      calculate_cost cat p c 0 = .ok (b, m, 0) := by
  intro q
  unfold calculate_cost
  cases hc : cat.procedures.filter (fun r => r.procedureCode == c) with
  | nil => exact absurd hc (code_filter_ne_nil cat c h)
  | cons r rest =>
    refine ⟨r.baseCostUSD, get_multiplier cat p c, rfl, ?_⟩
    simp

/-- Witness for C10: quantity 0 (and any quantity) is accepted; total
at 0 is 0. -/
theorem calculate_cost_no_quantity_check_witness :
    ∃ b m, calculate_cost sampleCatalog "P1" "R100" 0 = .ok (b, m, b * m * ((0 : ℤ) : ℚ)) ∧
      calculate_cost sampleCatalog "P1" "R100" 0 = .ok (b, m, 0) :=
  calculate_cost_no_quantity_check sampleCatalog "P1" "R100"
    ⟨procR100, List.mem_cons_self _ _, rfl⟩ 0

/-- C7: with a present positive SeriesQty, choosing "use full series"
makes the quantity the SeriesQty; declining it, or having no
SeriesQty, makes the quantity the user-entered one. -/
theorem choose_quantity_correct (s : ℤ) (hs : 0 < s) (u : ℤ) :
    choose_quantity (some s) true u = s ∧
    choose_quantity (some s) false u = u ∧
    ∀ b : Bool, choose_quantity none b u = u := by
  refine ⟨?_, ?_, fun b => rfl⟩ <;>
    simp [choose_quantity, hs.ne']

/-- Witness for C7 at Scenario D data: SeriesQty 12, entered quantity 5. -/
theorem choose_quantity_correct_witness :
    choose_quantity (some 12) true 5 = 12 ∧
    choose_quantity (some 12) false 5 = 5 ∧
    ∀ b : Bool, choose_quantity none b 5 = 5 :=
  choose_quantity_correct 12 (by decide) 5

/-- A sample selection sequence: two procedures for part P1, one for
part P2. -/
def sampleSelections : List Selection :=
  [{ partNumber := "P1", description := "Blade", procedureCode := "R100", quantity := 2 },
   { partNumber := "P1", description := "Blade", procedureCode := "R200", quantity := 2 },
   { partNumber := "P2", description := "Vane", procedureCode := "R200", quantity := 1 }]

/-- The line items that `build_quote_items` produces from
`sampleSelections` over `sampleCatalog`. -/
def sampleItems : List LineItem :=
  [{ partNumber := "P1", description := "Blade", procedureCode := "R100", quantity := 2,
     baseCost := 200, multiplier := 3/2, total := 200 * (3/2) * ((2 : ℤ) : ℚ) },
   { partNumber := "P1", description := "Blade", procedureCode := "R200", quantity := 2,
     baseCost := 50, multiplier := 1, total := 50 * 1 * ((2 : ℤ) : ℚ) },
   { partNumber := "P2", description := "Vane", procedureCode := "R200", quantity := 1,
     baseCost := 50, multiplier := 1, total := 50 * 1 * ((1 : ℤ) : ℚ) }]

/-- C5: quote building is order-preserving — the produced line items
carry exactly the input tuples' PartNumber, Description,
ProcedureCode and Quantity, in the input order. -/
theorem build_quote_items_order_preserving (cat : Catalog)
    (sels : List Selection) (items : List LineItem)
    (h : build_quote_items cat sels = .ok items) :
    items.map (fun it => (it.partNumber, it.description, it.procedureCode, it.quantity)) =
      sels.map (fun s => (s.partNumber, s.description, s.procedureCode, s.quantity)) := by
  induction sels generalizing items with
  | nil =>
    unfold build_quote_items at h
    injection h with h2
    subst h2
    rfl
  | cons s rest ih =>
    unfold build_quote_items at h
    cases hc : calculate_cost cat s.partNumber s.procedureCode s.quantity with
    | error e =>
      rw [hc] at h
      exact Except.noConfusion h
    | ok v =>
      obtain ⟨b, m, t⟩ := v
      rw [hc] at h
      cases hr : build_quote_items cat rest with
      | error e =>
        rw [hr] at h
        exact Except.noConfusion h
      | ok tail =>
        rw [hr] at h
        injection h with h2
        subst h2
        simp [ih tail hr]

/-- Witness for C5 on the three-selection sample. -/
theorem build_quote_items_order_preserving_witness :
    sampleItems.map (fun it => (it.partNumber, it.description, it.procedureCode, it.quantity)) =
      sampleSelections.map (fun s => (s.partNumber, s.description, s.procedureCode, s.quantity)) :=
  build_quote_items_order_preserving sampleCatalog sampleSelections sampleItems rfl

/-- Helper: the running `grand_total` fold equals its start value plus
the sum of the Totals. -/
theorem foldl_add_total (items : List LineItem) (a : ℚ) :
    items.foldl (fun acc it => acc + it.total) a =
      a + (items.map (fun it => it.total)).sum := by
  induction items generalizing a with
  | nil => simp
  | cons it rest ih =>
    rw [List.foldl_cons, ih]
    simp [add_assoc]

/-- Helper: one defaultdict update adds exactly `t` to the sum of the
subtotal values. -/
theorem subtotals_sum_add (totals : List (String × ℚ)) (pn : String) (t : ℚ) :
    subtotals_sum (add_to_part_totals totals pn t) = subtotals_sum totals + t := by
  induction totals with
  | nil => simp [add_to_part_totals, subtotals_sum]
  | cons kv rest ih =>
    obtain ⟨k, v⟩ := kv
    by_cases h : k = pn
    · simp [add_to_part_totals, h, subtotals_sum]
      ring
    · simp [add_to_part_totals, h, subtotals_sum] at ih ⊢
      rw [ih]
      ring

/-- Helper: the subtotal-values sum after folding a list of items into
a starting accumulator. -/
theorem subtotals_sum_foldl (items : List LineItem) (acc : List (String × ℚ)) :
    subtotals_sum
        (items.foldl (fun a it => add_to_part_totals a it.partNumber it.total) acc) =
      subtotals_sum acc + (items.map (fun it => it.total)).sum := by
  induction items generalizing acc with
  | nil => simp
  | cons it rest ih =>
    rw [List.foldl_cons, ih, subtotals_sum_add]
    simp [add_assoc]

/-- C3: for a non-empty line-item list, the grand total equals the sum
of the per-part subtotals, equals the sum of all Totals, and the web
front end's column sum equals the CLI's running accumulation — all
exact over ℚ. -/
theorem grand_total_consistent (items : List LineItem) (_h : items ≠ []) :
    grand_total items = subtotals_sum (part_totals items) ∧
    grand_total items = (items.map (fun it => it.total)).sum ∧
    grand_total_web items = grand_total items := by
  have h1 : grand_total items = (items.map (fun it => it.total)).sum := by
    unfold grand_total
    rw [foldl_add_total]
    ring
  have h2 : subtotals_sum (part_totals items) = (items.map (fun it => it.total)).sum := by
    unfold part_totals
    rw [subtotals_sum_foldl]
    simp [subtotals_sum]
  refine ⟨h1.trans h2.symm, h1, ?_⟩
  unfold grand_total_web
  rw [h1]

/-- Witness for C3 on the three-item sample quote. -/
theorem grand_total_consistent_witness :
    grand_total sampleItems = subtotals_sum (part_totals sampleItems) ∧
    grand_total sampleItems = (sampleItems.map (fun it => it.total)).sum ∧
    grand_total_web sampleItems = grand_total sampleItems :=
  grand_total_consistent sampleItems (List.cons_ne_nil _ _)

/-- Helper: one defaultdict update inserts the key in first-occurrence
(insertion) order. -/
theorem keys_add_to_part_totals (totals : List (String × ℚ)) (pn : String) (t : ℚ) :
    (add_to_part_totals totals pn t).map Prod.fst =
      add_key (totals.map Prod.fst) pn := by
  induction totals with
  | nil => simp [add_to_part_totals, add_key]
  | cons kv rest ih =>
    obtain ⟨k, v⟩ := kv
    by_cases h : k = pn
    · subst h
      simp [add_to_part_totals, add_key]
    · simp only [add_to_part_totals, if_neg h, List.map_cons]
      rw [ih]
      unfold add_key
      by_cases h2 : pn ∈ rest.map Prod.fst
      · rw [if_pos h2, if_pos (List.mem_cons_of_mem k h2)]
      · have h3 : pn ∉ k :: rest.map Prod.fst := by
          intro hx
          rcases List.mem_cons.mp hx with h4 | h4
          · exact h h4.symm
          · exact h2 h4
        rw [if_neg h2, if_neg h3, List.cons_append]

/-- Helper: the keys of the subtotal fold are the `add_key` fold of the
part numbers. -/
theorem keys_part_totals_foldl (items : List LineItem) (acc : List (String × ℚ)) :
    (items.foldl (fun a it => add_to_part_totals a it.partNumber it.total) acc).map
        Prod.fst =
      (items.map (fun it => it.partNumber)).foldl add_key (acc.map Prod.fst) := by
  induction items generalizing acc with
  | nil => simp
  | cons it rest ih =>
    rw [List.foldl_cons, ih, keys_add_to_part_totals, List.map_cons, List.foldl_cons]

/-- Helper: a key of the `add_key` fold comes from the start
accumulator or from the folded list. -/
theorem mem_of_mem_foldl_add_key (l : List String) (acc : List String) (x : String)
    (h : x ∈ l.foldl add_key acc) : x ∈ acc ∨ x ∈ l := by
  induction l generalizing acc with
  | nil => exact Or.inl h
  | cons y ys ih =>
    rw [List.foldl_cons] at h
    rcases ih (add_key acc y) h with h1 | h1
    · unfold add_key at h1
      by_cases hy : y ∈ acc
      · rw [if_pos hy] at h1
        exact Or.inl h1
      · rw [if_neg hy] at h1
        rcases List.mem_append.mp h1 with h2 | h2
        · exact Or.inl h2
        · simp at h2
          subst h2
          exact Or.inr (List.mem_cons_self _ _)
    · exact Or.inr (List.mem_cons_of_mem y h1)

/-- Helper: `find?` returns the head of the filtered list. -/
theorem find_eq_head_filter (items : List LineItem) (pn : String) :
    items.find? (fun i => i.partNumber == pn) =
      (items.filter (fun i => i.partNumber == pn)).head? := by
  induction items with
  | nil => rfl
  | cons it rest ih =>
    cases hp : (it.partNumber == pn) with
    | true =>
      rw [List.find?_cons_of_pos (p := fun i : LineItem => i.partNumber == pn) _ hp,
        List.filter_cons_of_pos (p := fun i : LineItem => i.partNumber == pn) hp,
        List.head?_cons]
    | false =>
      rw [List.find?_cons_of_neg (p := fun i : LineItem => i.partNumber == pn) _ (by simp [hp]),
        List.filter_cons_of_neg (p := fun i : LineItem => i.partNumber == pn) (by simp [hp]), ih]

/-- Helper: a part number occurring among the items has a first
matching item, so `find?` succeeds. -/
theorem displayed_description_isSome (items : List LineItem) (pn : String)
    (h : pn ∈ items.map (fun it => it.partNumber)) :
    (displayed_description items pn).isSome := by
  obtain ⟨i, hi, hpn⟩ := List.mem_map.mp h
  unfold displayed_description
  rw [Option.isSome_map']
  rw [List.find?_isSome]
  exact ⟨i, hi, by simpa using hpn⟩

/-- C6: the subtotal mapping lists part numbers in first-occurrence
order of the line-item sequence, and for every listed part the
displayed description exists and is the Description of the first line
item with that PartNumber. -/
theorem part_totals_keys_first_occurrence (items : List LineItem) :
    (part_totals items).map Prod.fst =
      first_occurrences (items.map (fun it => it.partNumber)) ∧
    ∀ pn ∈ (part_totals items).map Prod.fst,
      (displayed_description items pn).isSome ∧
      displayed_description items pn =
        ((items.filter (fun i => i.partNumber == pn)).head?).map
          (fun i => i.description) := by
  have hkeys : (part_totals items).map Prod.fst =
      first_occurrences (items.map (fun it => it.partNumber)) := by
    unfold part_totals first_occurrences
    rw [keys_part_totals_foldl]
    rfl
  refine ⟨hkeys, fun pn hpn => ⟨?_, ?_⟩⟩
  · rw [hkeys] at hpn
    unfold first_occurrences at hpn
    rcases mem_of_mem_foldl_add_key _ _ _ hpn with h1 | h1
    · exact absurd h1 (List.not_mem_nil pn)
    · exact displayed_description_isSome items pn h1
  · unfold displayed_description
    rw [find_eq_head_filter]

/-- Witness for C6 on the three-item sample quote, displaying part
"P1". -/
theorem part_totals_keys_first_occurrence_witness :
    (part_totals sampleItems).map Prod.fst =
      first_occurrences (sampleItems.map (fun it => it.partNumber)) ∧
    ((displayed_description sampleItems "P1").isSome ∧
      displayed_description sampleItems "P1" =
        ((sampleItems.filter (fun i => i.partNumber == "P1")).head?).map
          (fun i => i.description)) :=
  ⟨(part_totals_keys_first_occurrence sampleItems).1,
   (part_totals_keys_first_occurrence sampleItems).2 "P1" (by decide)⟩
